import Mathlib

/-!
Key event encoder (`lib/keys/dom.go`).

A shallow embedding of `keys.Encode` and of the two record types it works on,
followed by the properties of the encoder.

Modelling decisions:

* `rune` (Go `int32`) and `int64` are both embedded as `Int`; the only
  conversion in the source, `int64(r)`, is a widening and so the identity.
* The package-level table `Keys` is declared outside `dom.go` and is a
  parameter of type `KeyTable`. `dom.go` reads it once, as `v := Keys[r]`
  followed by `v.Key`, which compiles for an element type `Key` and for an
  element type `*Key` alike, and the two differ on a miss only. `index` and
  `Encode` take the miss to yield the zeroed metadata value (the lookup of the
  specification, and of a `map[rune]Key`); `EncodePtr` is the same body over a
  `map[rune]*Key`, where a miss yields the nil pointer and the first field
  read panics. The two agree whenever the entry is present
  (`EncodePtr_of_entry`).
* `runtime.GOOS` is a parameter `goos : String`.
* `[]*KeyParams` is embedded as `List KeyParams`: the three records are
  distinct local values, copied by assignment before their address is taken.
* `*time.Time` is embedded as `Option Int`, `none` being the nil pointer.
-/

set_option linter.dupNamespace false

namespace keys

/-- Go `rune`. -/
abbrev Rune := Int

/-- Key contains information for generating a key press based off the unicode
value (`type Key struct`). -/
structure Key where
  Code : String
  Key : String
  Text : String
  Unmodified : String
  Native : Int
  Windows : Int
  Shift : Bool
  Print : Bool
deriving DecidableEq, Repr

/-- The zero value of `Key`: the zeroed metadata value, what indexing a
`map[rune]Key` yields for an absent key. -/
def zeroKey : Key :=
  { Code := "", Key := "", Text := "", Unmodified := "",
    Native := 0, Windows := 0, Shift := false, Print := false }

/-- KeyParams dispatches a key event to the page (`type KeyParams struct`).
The field `Type` of the source is spelled `Type_`. -/
structure KeyParams where
  Type_ : String
  Modifiers : Int
  Timestamp : Option Int
  Text : String
  UnmodifiedText : String
  KeyIdentifier : String
  Code : String
  Key : String
  WindowsVirtualKeyCode : Int
  NativeVirtualKeyCode : Int
  AutoRepeat : Bool
  IsKeypad : Bool
  IsSystemKey : Bool
  Location : Int
deriving DecidableEq, Repr

/-- The zero value of `KeyParams`: what a composite literal leaves in the
fields it does not mention. -/
def zeroKeyParams : KeyParams :=
  { Type_ := "", Modifiers := 0, Timestamp := none, Text := "",
    UnmodifiedText := "", KeyIdentifier := "", Code := "", Key := "",
    WindowsVirtualKeyCode := 0, NativeVirtualKeyCode := 0,
    AutoRepeat := false, IsKeypad := false, IsSystemKey := false,
    Location := 0 }

/-- The metadata table `Keys`, a Go map keyed by rune whose declaration is not
in `dom.go`; `none` stands for an absent key. -/
abbrev KeyTable := Rune → Option Key

/-- Modelled from the spec: the lookup `Keys[r]` on the table, whose declaration
(and so whose element type) is not in `dom.go`. An entry that is present is
returned as it is. On a miss the lookup "returns a well-defined default
(unidentified key)", "zeroed/default metadata" with `code`/`keyValue` empty,
`isPrintable` false and no modifier requirement; that is also what indexing a
`map[rune]Key` yields. For a `map[rune]*Key` see `EncodePtr`. -/
def index (Keys : KeyTable) (r : Rune) : Key :=
  match Keys r with
  | some v => v
  | none => zeroKey

/-- The line-feed rune. -/
def lf : Rune := 10

/-- The carriage-return rune. -/
def cr : Rune := 13

/-- First statement of `Encode`: force line-feed to carriage-return. -/
def normalize (r : Rune) : Rune :=
  if r = lf then cr else r

/-- The `keyDown` local of `Encode` after the composite literal, the
`runtime.GOOS` test and the `v.Shift` test. -/
def mkKeyDown (goos : String) (v : Key) : KeyParams :=
  let keyDown : KeyParams :=
    { zeroKeyParams with
      Type_ := "keyDown"
      Key := v.Key
      Code := v.Code
      NativeVirtualKeyCode := v.Native
      WindowsVirtualKeyCode := v.Windows }
  let keyDown : KeyParams :=
    if goos = "darwin" then { keyDown with NativeVirtualKeyCode := 0 } else keyDown
  let keyDown : KeyParams :=
    if v.Shift then { keyDown with Modifiers := Int.lor keyDown.Modifiers 8 } else keyDown
  keyDown

/-- The `keyUp` local of `Encode`: a copy of `keyDown` with `Type` replaced. -/
def mkKeyUp (keyDown : KeyParams) : KeyParams :=
  { keyDown with Type_ := "keyUp" }

/-- The `keyChar` local of `Encode`, built in the printable branch; `r` is the
rune after normalization. -/
def mkKeyChar (keyDown : KeyParams) (v : Key) (r : Rune) : KeyParams :=
  let keyChar : KeyParams := keyDown
  let keyChar : KeyParams := { keyChar with Type_ := "char" }
  let keyChar : KeyParams := { keyChar with Text := v.Text }
  let keyChar : KeyParams := { keyChar with UnmodifiedText := v.Unmodified }
  let keyChar : KeyParams := { keyChar with NativeVirtualKeyCode := r }
  let keyChar : KeyParams := { keyChar with WindowsVirtualKeyCode := r }
  keyChar

/-- Encode encodes a keyDown, char, and keyUp sequence for the specified rune. -/
def Encode (Keys : KeyTable) (goos : String) (r : Rune) : List KeyParams :=
  let r := normalize r
  let v := index Keys r
  let keyDown := mkKeyDown goos v
  let keyUp := mkKeyUp keyDown
  if v.Print then
    let keyChar := mkKeyChar keyDown v r
    [keyDown, keyChar, keyUp]
  else
    [keyDown, keyUp]

/-- The metadata `Encode` works from: the table entry at the normalized rune. -/
def lookup (Keys : KeyTable) (r : Rune) : Key :=
  index Keys (normalize r)

/-- Encode over a table of type `map[rune]*Key`, returning `none` when the call
panics. `v := Keys[r]` is the nil pointer when the normalized rune has no
entry; there is no presence check, and the field read `v.Key` in the `keyDown`
literal dereferences it. With an entry present the statements are those of
`Encode`. -/
def EncodePtr (Keys : KeyTable) (goos : String) (r : Rune) : Option (List KeyParams) :=
  let r := normalize r
  match Keys r with
  | none => none
  | some v =>
    let keyDown := mkKeyDown goos v
    let keyUp := mkKeyUp keyDown
    if v.Print then
      let keyChar := mkKeyChar keyDown v r
      some [keyDown, keyChar, keyUp]
    else
      some [keyDown, keyUp]

/-! ### Sample tables -/

/-- The example rows of the comment above `type Key`. -/
def sampleKeys : KeyTable := fun r =>
  if r = 13 then
    some { Code := "Enter", Key := "Enter", Text := "\r", Unmodified := "\r",
           Native := 0x13, Windows := 0x13, Shift := false, Print := true }
  else if r = 44 then
    some { Code := "Comma", Key := ",", Text := ",", Unmodified := ",",
           Native := 0xbc, Windows := 0xbc, Shift := false, Print := true }
  else if r = 60 then
    some { Code := "Comma", Key := "<", Text := "<", Unmodified := ",",
           Native := 0xbc, Windows := 0xbc, Shift := true, Print := true }
  else if r = 97 then
    some { Code := "KeyA", Key := "a", Text := "a", Unmodified := "a",
           Native := 0x61, Windows := 0x41, Shift := false, Print := true }
  else if r = 65 then
    some { Code := "KeyA", Key := "A", Text := "A", Unmodified := "a",
           Native := 0x41, Windows := 0x41, Shift := true, Print := true }
  else if r = 0x0a07 then
    some { Code := "MediaStop", Key := "MediaStop", Text := "", Unmodified := "",
           Native := 0x00ae, Windows := 0xe024, Shift := false, Print := false }
  else none

/-- A table holding one entry for carriage-return and a different one for
line-feed. -/
def lfKeys : KeyTable := fun r =>
  if r = 13 then
    some { Code := "Enter", Key := "Enter", Text := "\r", Unmodified := "\r",
           Native := 0x13, Windows := 0x13, Shift := false, Print := true }
  else if r = 10 then
    some { Code := "LineFeed", Key := "LF", Text := "\n", Unmodified := "\n",
           Native := 0x0a, Windows := 0x0a, Shift := true, Print := false }
  else none

/-! ### Unfolding lemmas -/

theorem Encode_eq (Keys : KeyTable) (goos : String) (r : Rune) :
    Encode Keys goos r =
      if (lookup Keys r).Print then
        [mkKeyDown goos (lookup Keys r),
         mkKeyChar (mkKeyDown goos (lookup Keys r)) (lookup Keys r) (normalize r),
         mkKeyUp (mkKeyDown goos (lookup Keys r))]
      else
        [mkKeyDown goos (lookup Keys r), mkKeyUp (mkKeyDown goos (lookup Keys r))] :=
  rfl

theorem Encode_of_print (Keys : KeyTable) (goos : String) (r : Rune)
    (h : (lookup Keys r).Print = true) :
    Encode Keys goos r =
      [mkKeyDown goos (lookup Keys r),
       mkKeyChar (mkKeyDown goos (lookup Keys r)) (lookup Keys r) (normalize r),
       mkKeyUp (mkKeyDown goos (lookup Keys r))] := by
  rw [Encode_eq, if_pos h]

theorem Encode_of_not_print (Keys : KeyTable) (goos : String) (r : Rune)
    (h : (lookup Keys r).Print = false) :
    Encode Keys goos r =
      [mkKeyDown goos (lookup Keys r), mkKeyUp (mkKeyDown goos (lookup Keys r))] := by
  rw [Encode_eq, h]; rfl

theorem Encode_head (Keys : KeyTable) (goos : String) (r : Rune) :
    (Encode Keys goos r).head? = some (mkKeyDown goos (lookup Keys r)) := by
  rw [Encode_eq]; split <;> rfl

theorem Encode_getLast (Keys : KeyTable) (goos : String) (r : Rune) :
    (Encode Keys goos r).getLast? = some (mkKeyUp (mkKeyDown goos (lookup Keys r))) := by
  rw [Encode_eq]; split <;> rfl

theorem mkKeyDown_Type (goos : String) (v : Key) : (mkKeyDown goos v).Type_ = "keyDown" := by
  unfold mkKeyDown; dsimp only; split <;> split <;> rfl

theorem mkKeyDown_Key (goos : String) (v : Key) : (mkKeyDown goos v).Key = v.Key := by
  unfold mkKeyDown; dsimp only; split <;> split <;> rfl

theorem mkKeyDown_Code (goos : String) (v : Key) : (mkKeyDown goos v).Code = v.Code := by
  unfold mkKeyDown; dsimp only; split <;> split <;> rfl

theorem mkKeyDown_KeyIdentifier (goos : String) (v : Key) :
    (mkKeyDown goos v).KeyIdentifier = "" := by
  unfold mkKeyDown; dsimp only; split <;> split <;> rfl

theorem mkKeyDown_Text (goos : String) (v : Key) : (mkKeyDown goos v).Text = "" := by
  unfold mkKeyDown; dsimp only; split <;> split <;> rfl

theorem mkKeyDown_UnmodifiedText (goos : String) (v : Key) :
    (mkKeyDown goos v).UnmodifiedText = "" := by
  unfold mkKeyDown; dsimp only; split <;> split <;> rfl

theorem mkKeyDown_Windows (goos : String) (v : Key) :
    (mkKeyDown goos v).WindowsVirtualKeyCode = v.Windows := by
  unfold mkKeyDown; dsimp only; split <;> split <;> rfl

theorem mkKeyDown_Native (goos : String) (v : Key) :
    (mkKeyDown goos v).NativeVirtualKeyCode = if goos = "darwin" then 0 else v.Native := by
  unfold mkKeyDown; dsimp only; split <;> split <;> rfl

theorem mkKeyDown_Modifiers (goos : String) (v : Key) :
    (mkKeyDown goos v).Modifiers = if v.Shift then 8 else 0 := by
  unfold mkKeyDown; dsimp only; split <;> split <;> rfl

theorem lookup_lf (Keys : KeyTable) : lookup Keys 10 = lookup Keys 13 := rfl

theorem EncodePtr_of_entry (Keys : KeyTable) (goos : String) (r : Rune) (v : Key)
    (h : Keys (normalize r) = some v) :
    EncodePtr Keys goos r = some (Encode Keys goos r) := by
  unfold EncodePtr Encode index
  simp only [h]
  split <;> rfl

theorem EncodePtr_of_miss (Keys : KeyTable) (goos : String) (r : Rune)
    (h : Keys (normalize r) = none) :
    EncodePtr Keys goos r = none := by
  unfold EncodePtr
  simp only [h]

/-! ### Claims about `Encode` -/

/-- C1: for every rune, table and platform, `Encode` returns exactly three
records (keyDown, char, keyUp) when the metadata looked up after line-feed
normalization has `Print = true`, and exactly two (keyDown, keyUp) otherwise. -/
theorem C1_length_and_order (Keys : KeyTable) (goos : String) (r : Rune) :
    ((lookup Keys r).Print = true ∧
        ∃ kd kc ku, Encode Keys goos r = [kd, kc, ku] ∧
          kd.Type_ = "keyDown" ∧ kc.Type_ = "char" ∧ ku.Type_ = "keyUp") ∨
    ((lookup Keys r).Print = false ∧
        ∃ kd ku, Encode Keys goos r = [kd, ku] ∧
          kd.Type_ = "keyDown" ∧ ku.Type_ = "keyUp") := by
  cases h : (lookup Keys r).Print with
  | true =>
    exact Or.inl ⟨rfl, _, _, _, Encode_of_print Keys goos r h,
      mkKeyDown_Type goos _, rfl, rfl⟩
  | false =>
    exact Or.inr ⟨rfl, _, _, Encode_of_not_print Keys goos r h,
      mkKeyDown_Type goos _, rfl⟩

/-- C2: for every table (also one with its own line-feed entry) and every
platform, `Encode` of line-feed (10) and of carriage-return (13) are the same
list of records. -/
theorem C2_newline_same_as_return (Keys : KeyTable) (goos : String) :
    Encode Keys goos 10 = Encode Keys goos 13 :=
  rfl

/-- C3 as stated fails: with the comma entry (`Key = ","`) the keyDown record
has an empty `KeyIdentifier`, which differs from the metadata's key value. -/
theorem C3_counterexample :
    (lookup sampleKeys 44).Key = "," ∧
    ∃ kd rest, Encode sampleKeys "linux" 44 = kd :: rest ∧
      kd.Type_ = "keyDown" ∧ kd.KeyIdentifier = "" ∧
      kd.KeyIdentifier ≠ (lookup sampleKeys 44).Key := by
  refine ⟨by decide, _, _, Encode_of_print sampleKeys "linux" 44 (by decide), ?_, ?_, ?_⟩
  · decide
  · decide
  · decide

/-- C3 amended: the keyDown record built by `Encode` has `Key` equal to the
metadata's key value and `Code` equal to the metadata's code, while
`KeyIdentifier` is left empty. -/
theorem C3_keyDown_identity (Keys : KeyTable) (goos : String) (r : Rune) :
    ∃ kd rest, Encode Keys goos r = kd :: rest ∧ kd.Type_ = "keyDown" ∧
      kd.KeyIdentifier = "" ∧ kd.Key = (lookup Keys r).Key ∧
      kd.Code = (lookup Keys r).Code := by
  cases h : (lookup Keys r).Print with
  | true =>
    exact ⟨_, _, Encode_of_print Keys goos r h, mkKeyDown_Type goos _,
      mkKeyDown_KeyIdentifier goos _, mkKeyDown_Key goos _, mkKeyDown_Code goos _⟩
  | false =>
    exact ⟨_, _, Encode_of_not_print Keys goos r h, mkKeyDown_Type goos _,
      mkKeyDown_KeyIdentifier goos _, mkKeyDown_Key goos _, mkKeyDown_Code goos _⟩

/-- C4 as stated fails: line-feed (code point 10) is printable under the sample
table, yet its char record carries 13 in both virtual key codes. -/
theorem C4_counterexample :
    (lookup sampleKeys 10).Print = true ∧
    ∃ kd kc ku, Encode sampleKeys "linux" 10 = [kd, kc, ku] ∧ kc.Type_ = "char" ∧
      kc.NativeVirtualKeyCode = 13 ∧ kc.WindowsVirtualKeyCode = 13 ∧
      kc.NativeVirtualKeyCode ≠ 10 ∧ kc.WindowsVirtualKeyCode ≠ 10 := by
  refine ⟨by decide, _, _, _, Encode_of_print sampleKeys "linux" 10 (by decide),
    ?_, ?_, ?_, ?_, ?_⟩ <;> decide

/-- C4 amended: for every printable rune the char record carries, in both
virtual key codes, the code point of the rune after line-feed normalization
(the rune itself unless it is line-feed), whatever the metadata's scan codes. -/
theorem C4_char_codes (Keys : KeyTable) (goos : String) (r : Rune)
    (h : (lookup Keys r).Print = true) :
    ∃ kd kc ku, Encode Keys goos r = [kd, kc, ku] ∧ kc.Type_ = "char" ∧
      kc.NativeVirtualKeyCode = normalize r ∧
      kc.WindowsVirtualKeyCode = normalize r ∧
      (r ≠ 10 → kc.NativeVirtualKeyCode = r ∧ kc.WindowsVirtualKeyCode = r) := by
  refine ⟨_, _, _, Encode_of_print Keys goos r h, rfl, rfl, rfl, ?_⟩
  intro hr
  have hn : normalize r = r := if_neg hr
  exact ⟨hn, hn⟩

/-- Witness for C4 at the comma: the char record carries 44 while the
metadata's scan codes are 188. -/
theorem C4_char_codes_witness :
    (lookup sampleKeys 44).Print = true ∧ (lookup sampleKeys 44).Native = 188 ∧
    ∃ kd kc ku, Encode sampleKeys "linux" 44 = [kd, kc, ku] ∧ kc.Type_ = "char" ∧
      kc.NativeVirtualKeyCode = normalize 44 ∧
      kc.WindowsVirtualKeyCode = normalize 44 ∧
      ((44 : Rune) ≠ 10 → kc.NativeVirtualKeyCode = 44 ∧ kc.WindowsVirtualKeyCode = 44) :=
  ⟨by decide, by decide, C4_char_codes sampleKeys "linux" 44 (by decide)⟩

/-- C5: when the platform is not darwin, the keyDown record (first) and the
keyUp record (last) of `Encode` both carry the metadata's `Native` and
`Windows` scan codes. -/
theorem C5_scan_codes_off_darwin (Keys : KeyTable) (goos : String) (r : Rune)
    (hos : goos ≠ "darwin") :
    ∃ kd ku, (Encode Keys goos r).head? = some kd ∧
      (Encode Keys goos r).getLast? = some ku ∧
      kd.Type_ = "keyDown" ∧ ku.Type_ = "keyUp" ∧
      kd.NativeVirtualKeyCode = (lookup Keys r).Native ∧
      kd.WindowsVirtualKeyCode = (lookup Keys r).Windows ∧
      ku.NativeVirtualKeyCode = (lookup Keys r).Native ∧
      ku.WindowsVirtualKeyCode = (lookup Keys r).Windows := by
  have hn : (mkKeyDown goos (lookup Keys r)).NativeVirtualKeyCode = (lookup Keys r).Native := by
    rw [mkKeyDown_Native, if_neg hos]
  exact ⟨_, _, Encode_head Keys goos r, Encode_getLast Keys goos r,
    mkKeyDown_Type goos _, rfl, hn, mkKeyDown_Windows goos _, hn, mkKeyDown_Windows goos _⟩

/-- Witness for C5: the shifted comma on linux. -/
theorem C5_scan_codes_off_darwin_witness :
    "linux" ≠ "darwin" ∧
    ∃ kd ku, (Encode sampleKeys "linux" 60).head? = some kd ∧
      (Encode sampleKeys "linux" 60).getLast? = some ku ∧
      kd.Type_ = "keyDown" ∧ ku.Type_ = "keyUp" ∧
      kd.NativeVirtualKeyCode = (lookup sampleKeys 60).Native ∧
      kd.WindowsVirtualKeyCode = (lookup sampleKeys 60).Windows ∧
      ku.NativeVirtualKeyCode = (lookup sampleKeys 60).Native ∧
      ku.WindowsVirtualKeyCode = (lookup sampleKeys 60).Windows :=
  ⟨by decide, C5_scan_codes_off_darwin sampleKeys "linux" 60 (by decide)⟩

/-- C6: on darwin, for every rune and table, the keyDown and keyUp records of
`Encode` have `NativeVirtualKeyCode = 0` and `WindowsVirtualKeyCode` equal to
the metadata's `Windows` scan code. -/
theorem C6_native_zero_on_darwin (Keys : KeyTable) (r : Rune) :
    ∃ kd ku, (Encode Keys "darwin" r).head? = some kd ∧
      (Encode Keys "darwin" r).getLast? = some ku ∧
      kd.Type_ = "keyDown" ∧ ku.Type_ = "keyUp" ∧
      kd.NativeVirtualKeyCode = 0 ∧
      kd.WindowsVirtualKeyCode = (lookup Keys r).Windows ∧
      ku.NativeVirtualKeyCode = 0 ∧
      ku.WindowsVirtualKeyCode = (lookup Keys r).Windows := by
  have hn : (mkKeyDown "darwin" (lookup Keys r)).NativeVirtualKeyCode = 0 := by
    rw [mkKeyDown_Native, if_pos rfl]
  exact ⟨_, _, Encode_head Keys "darwin" r, Encode_getLast Keys "darwin" r,
    mkKeyDown_Type _ _, rfl, hn, mkKeyDown_Windows _ _, hn, mkKeyDown_Windows _ _⟩

/-- C7: for every printable rune, bit 3 (value 8) of `Modifiers` is set in all
three records of `Encode` when the metadata has `Shift = true`, and clear in
all three when it has `Shift = false`. -/
theorem C7_shift_bit (Keys : KeyTable) (goos : String) (r : Rune)
    (h : (lookup Keys r).Print = true) :
    ∃ kd kc ku, Encode Keys goos r = [kd, kc, ku] ∧
      kd.Type_ = "keyDown" ∧ kc.Type_ = "char" ∧ ku.Type_ = "keyUp" ∧
      Int.testBit kd.Modifiers 3 = (lookup Keys r).Shift ∧
      Int.testBit kc.Modifiers 3 = (lookup Keys r).Shift ∧
      Int.testBit ku.Modifiers 3 = (lookup Keys r).Shift := by
  have hm : Int.testBit (mkKeyDown goos (lookup Keys r)).Modifiers 3
      = (lookup Keys r).Shift := by
    rw [mkKeyDown_Modifiers]
    cases (lookup Keys r).Shift <;> decide
  exact ⟨_, _, _, Encode_of_print Keys goos r h, mkKeyDown_Type goos _, rfl, rfl, hm, hm, hm⟩

/-- Witness for C7: the shifted comma has the bit set. -/
theorem C7_shift_bit_witness :
    (lookup sampleKeys 60).Print = true ∧ (lookup sampleKeys 60).Shift = true ∧
    ∃ kd kc ku, Encode sampleKeys "linux" 60 = [kd, kc, ku] ∧
      kd.Type_ = "keyDown" ∧ kc.Type_ = "char" ∧ ku.Type_ = "keyUp" ∧
      Int.testBit kd.Modifiers 3 = (lookup sampleKeys 60).Shift ∧
      Int.testBit kc.Modifiers 3 = (lookup sampleKeys 60).Shift ∧
      Int.testBit ku.Modifiers 3 = (lookup sampleKeys 60).Shift :=
  ⟨by decide, by decide, C7_shift_bit sampleKeys "linux" 60 (by decide)⟩

/-- C8 fails on the code over a pointer-valued table: runes 5 and 233 have no
entry in the sample table, so `Keys[r]` is nil and `Encode` panics at the first
field read, on every platform, where the claim has it return a keyDown/keyUp
pair with zeroed fields. -/
theorem C8_unknown_rune_panics :
    sampleKeys 5 = none ∧ sampleKeys 233 = none ∧
    EncodePtr sampleKeys "linux" 5 = none ∧ EncodePtr sampleKeys "darwin" 5 = none ∧
    EncodePtr sampleKeys "linux" 233 = none ∧ EncodePtr sampleKeys "darwin" 233 = none := by
  refine ⟨by decide, by decide, ?_, ?_, ?_, ?_⟩ <;>
    exact EncodePtr_of_miss _ _ _ (by decide)

/-- C9: for every rune the keyUp record (last) of `Encode` agrees with the
keyDown record (first) in every field but `Type`, which is "keyUp" on the one
and "keyDown" on the other. -/
theorem C9_keyUp_copies_keyDown (Keys : KeyTable) (goos : String) (r : Rune) :
    ∃ kd ku, (Encode Keys goos r).head? = some kd ∧
      (Encode Keys goos r).getLast? = some ku ∧
      kd.Type_ = "keyDown" ∧ ku.Type_ = "keyUp" ∧ ku.Type_ ≠ kd.Type_ ∧
      ku.Modifiers = kd.Modifiers ∧ ku.Timestamp = kd.Timestamp ∧
      ku.Text = kd.Text ∧ ku.UnmodifiedText = kd.UnmodifiedText ∧
      ku.KeyIdentifier = kd.KeyIdentifier ∧ ku.Code = kd.Code ∧ ku.Key = kd.Key ∧
      ku.WindowsVirtualKeyCode = kd.WindowsVirtualKeyCode ∧
      ku.NativeVirtualKeyCode = kd.NativeVirtualKeyCode ∧
      ku.AutoRepeat = kd.AutoRepeat ∧ ku.IsKeypad = kd.IsKeypad ∧
      ku.IsSystemKey = kd.IsSystemKey ∧ ku.Location = kd.Location := by
  refine ⟨_, _, Encode_head Keys goos r, Encode_getLast Keys goos r,
    mkKeyDown_Type goos _, rfl, ?_, rfl, rfl, rfl, rfl, rfl, rfl, rfl, rfl, rfl, rfl, rfl,
    rfl, rfl⟩
  rw [mkKeyDown_Type]
  show "keyUp" ≠ "keyDown"
  decide

/-- C10: the keyDown and keyUp records of `Encode` have empty `Text` and
`UnmodifiedText`; a char record is emitted exactly for printable metadata and
then carries the metadata's `Text` and `Unmodified`. -/
theorem C10_text_only_on_char (Keys : KeyTable) (goos : String) (r : Rune) :
    ∃ kd ku, kd.Type_ = "keyDown" ∧ ku.Type_ = "keyUp" ∧
      kd.Text = "" ∧ kd.UnmodifiedText = "" ∧ ku.Text = "" ∧ ku.UnmodifiedText = "" ∧
      (((lookup Keys r).Print = false ∧ Encode Keys goos r = [kd, ku]) ∨
       ((lookup Keys r).Print = true ∧
          ∃ kc, Encode Keys goos r = [kd, kc, ku] ∧ kc.Type_ = "char" ∧
            kc.Text = (lookup Keys r).Text ∧
            kc.UnmodifiedText = (lookup Keys r).Unmodified)) := by
  refine ⟨mkKeyDown goos (lookup Keys r), mkKeyUp (mkKeyDown goos (lookup Keys r)),
    mkKeyDown_Type goos _, rfl, mkKeyDown_Text goos _, mkKeyDown_UnmodifiedText goos _,
    mkKeyDown_Text goos _, mkKeyDown_UnmodifiedText goos _, ?_⟩
  cases h : (lookup Keys r).Print with
  | false => exact Or.inl ⟨rfl, Encode_of_not_print Keys goos r h⟩
  | true => exact Or.inr ⟨rfl, _, Encode_of_print Keys goos r h, rfl, rfl, rfl⟩

/-! ### Closed forms of the three records -/

theorem mkKeyDown_eq (goos : String) (v : Key) :
    mkKeyDown goos v =
      { zeroKeyParams with
        Type_ := "keyDown"
        Key := v.Key
        Code := v.Code
        NativeVirtualKeyCode := if goos = "darwin" then 0 else v.Native
        WindowsVirtualKeyCode := v.Windows
        Modifiers := if v.Shift then 8 else 0 } := by
  unfold mkKeyDown; dsimp only; split <;> split <;> rfl

theorem mkKeyChar_eq (goos : String) (v : Key) (r : Rune) :
    mkKeyChar (mkKeyDown goos v) v r =
      { zeroKeyParams with
        Type_ := "char"
        Key := v.Key
        Code := v.Code
        Text := v.Text
        UnmodifiedText := v.Unmodified
        NativeVirtualKeyCode := r
        WindowsVirtualKeyCode := r
        Modifiers := if v.Shift then 8 else 0 } := by
  rw [mkKeyDown_eq]; rfl

theorem lookup_of_entry (Keys : KeyTable) (r : Rune) (v : Key) (hr : r ≠ 10)
    (h : Keys r = some v) : lookup Keys r = v := by
  have hn : normalize r = r := if_neg hr
  unfold lookup index
  rw [hn, h]

/-- C11: with the comma entry in the table, `Encode` of the comma (44) off
darwin is the triple keyDown (Code "Comma", Key ",", Modifiers 0, both codes
0xbc), char (Text ",", UnmodifiedText ",", both codes 44), keyUp (the keyDown
record with Type "keyUp"). -/
theorem C11_comma_example (Keys : KeyTable) (goos : String)
    (hentry : Keys 44 = some
      { Code := "Comma", Key := ",", Text := ",", Unmodified := ",",
        Native := 0xbc, Windows := 0xbc, Shift := false, Print := true })
    (hos : goos ≠ "darwin") :
    Encode Keys goos 44 =
      [ { zeroKeyParams with
          Type_ := "keyDown", Code := "Comma", Key := ",", Modifiers := 0,
          NativeVirtualKeyCode := 0xbc, WindowsVirtualKeyCode := 0xbc },
        { zeroKeyParams with
          Type_ := "char", Code := "Comma", Key := ",", Modifiers := 0,
          Text := ",", UnmodifiedText := ",",
          NativeVirtualKeyCode := 44, WindowsVirtualKeyCode := 44 },
        { zeroKeyParams with
          Type_ := "keyUp", Code := "Comma", Key := ",", Modifiers := 0,
          NativeVirtualKeyCode := 0xbc, WindowsVirtualKeyCode := 0xbc } ] := by
  have hv := lookup_of_entry Keys 44 _ (by decide) hentry
  rw [Encode_of_print Keys goos 44 (by rw [hv]), mkKeyChar_eq, mkKeyDown_eq, hv,
    show normalize 44 = 44 from rfl]
  simp only [if_neg hos]
  rfl

/-- Witness for C11: the sample table on linux. -/
theorem C11_comma_example_witness :
    sampleKeys 44 = some
      { Code := "Comma", Key := ",", Text := ",", Unmodified := ",",
        Native := 0xbc, Windows := 0xbc, Shift := false, Print := true } ∧
    "linux" ≠ "darwin" ∧
    Encode sampleKeys "linux" 44 =
      [ { zeroKeyParams with
          Type_ := "keyDown", Code := "Comma", Key := ",", Modifiers := 0,
          NativeVirtualKeyCode := 0xbc, WindowsVirtualKeyCode := 0xbc },
        { zeroKeyParams with
          Type_ := "char", Code := "Comma", Key := ",", Modifiers := 0,
          Text := ",", UnmodifiedText := ",",
          NativeVirtualKeyCode := 44, WindowsVirtualKeyCode := 44 },
        { zeroKeyParams with
          Type_ := "keyUp", Code := "Comma", Key := ",", Modifiers := 0,
          NativeVirtualKeyCode := 0xbc, WindowsVirtualKeyCode := 0xbc } ] :=
  ⟨by decide, by decide, C11_comma_example sampleKeys "linux" (by decide) (by decide)⟩

/-- C12: with the comma and less-than entries in the table, `Encode` of the
less-than sign (60) off darwin is the triple of `Encode` of the comma with
`Key` replaced by "<" and `Modifiers` by 8 in all three records and, on the
char record, `Text` "<", `UnmodifiedText` "," and both virtual key codes 60. -/
theorem C12_shifted_comma_example (Keys : KeyTable) (goos : String)
    (hcomma : Keys 44 = some
      { Code := "Comma", Key := ",", Text := ",", Unmodified := ",",
        Native := 0xbc, Windows := 0xbc, Shift := false, Print := true })
    (hless : Keys 60 = some
      { Code := "Comma", Key := "<", Text := "<", Unmodified := ",",
        Native := 0xbc, Windows := 0xbc, Shift := true, Print := true })
    (hos : goos ≠ "darwin") :
    ∃ kd kc ku, Encode Keys goos 44 = [kd, kc, ku] ∧
      Encode Keys goos 60 =
        [ { kd with Key := "<", Modifiers := 8 },
          { kc with Key := "<", Modifiers := 8, Text := "<", UnmodifiedText := ",",
                    NativeVirtualKeyCode := 60, WindowsVirtualKeyCode := 60 },
          { ku with Key := "<", Modifiers := 8 } ] ∧
      Encode Keys goos 60 =
        [ { zeroKeyParams with
            Type_ := "keyDown", Code := "Comma", Key := "<", Modifiers := 8,
            NativeVirtualKeyCode := 0xbc, WindowsVirtualKeyCode := 0xbc },
          { zeroKeyParams with
            Type_ := "char", Code := "Comma", Key := "<", Modifiers := 8,
            Text := "<", UnmodifiedText := ",",
            NativeVirtualKeyCode := 60, WindowsVirtualKeyCode := 60 },
          { zeroKeyParams with
            Type_ := "keyUp", Code := "Comma", Key := "<", Modifiers := 8,
            NativeVirtualKeyCode := 0xbc, WindowsVirtualKeyCode := 0xbc } ] := by
  have hv44 := lookup_of_entry Keys 44 _ (by decide) hcomma
  have hv60 := lookup_of_entry Keys 60 _ (by decide) hless
  have h44 := Encode_of_print Keys goos 44 (by rw [hv44])
  have h60 := Encode_of_print Keys goos 60 (by rw [hv60])
  rw [mkKeyChar_eq, mkKeyDown_eq, hv44, show normalize 44 = 44 from rfl] at h44
  rw [mkKeyChar_eq, mkKeyDown_eq, hv60, show normalize 60 = 60 from rfl] at h60
  simp only [if_neg hos] at h44 h60
  exact ⟨_, _, _, h44, h60, h60⟩

/-- Witness for C12: the sample table on linux. -/
theorem C12_shifted_comma_example_witness :
    sampleKeys 44 = some
      { Code := "Comma", Key := ",", Text := ",", Unmodified := ",",
        Native := 0xbc, Windows := 0xbc, Shift := false, Print := true } ∧
    sampleKeys 60 = some
      { Code := "Comma", Key := "<", Text := "<", Unmodified := ",",
        Native := 0xbc, Windows := 0xbc, Shift := true, Print := true } ∧
    "linux" ≠ "darwin" ∧
    ∃ kd kc ku, Encode sampleKeys "linux" 44 = [kd, kc, ku] ∧
      Encode sampleKeys "linux" 60 =
        [ { kd with Key := "<", Modifiers := 8 },
          { kc with Key := "<", Modifiers := 8, Text := "<", UnmodifiedText := ",",
                    NativeVirtualKeyCode := 60, WindowsVirtualKeyCode := 60 },
          { ku with Key := "<", Modifiers := 8 } ] ∧
      Encode sampleKeys "linux" 60 =
        [ { zeroKeyParams with
            Type_ := "keyDown", Code := "Comma", Key := "<", Modifiers := 8,
            NativeVirtualKeyCode := 0xbc, WindowsVirtualKeyCode := 0xbc },
          { zeroKeyParams with
            Type_ := "char", Code := "Comma", Key := "<", Modifiers := 8,
            Text := "<", UnmodifiedText := ",",
            NativeVirtualKeyCode := 60, WindowsVirtualKeyCode := 60 },
          { zeroKeyParams with
            Type_ := "keyUp", Code := "Comma", Key := "<", Modifiers := 8,
            NativeVirtualKeyCode := 0xbc, WindowsVirtualKeyCode := 0xbc } ] :=
  ⟨by decide, by decide, by decide,
    C12_shifted_comma_example sampleKeys "linux" (by decide) (by decide) (by decide)⟩

theorem mem_Encode (Keys : KeyTable) (goos : String) (r : Rune) (p : KeyParams)
    (hp : p ∈ Encode Keys goos r) :
    p = mkKeyDown goos (lookup Keys r) ∨
    p = mkKeyChar (mkKeyDown goos (lookup Keys r)) (lookup Keys r) (normalize r) ∨
    p = mkKeyUp (mkKeyDown goos (lookup Keys r)) := by
  rw [Encode_eq] at hp
  split at hp
  · simpa using hp
  · have h2 : p = mkKeyDown goos (lookup Keys r) ∨
        p = mkKeyUp (mkKeyDown goos (lookup Keys r)) := by simpa using hp
    rcases h2 with h | h
    · exact Or.inl h
    · exact Or.inr (Or.inr h)

theorem Encode_ne_nil (Keys : KeyTable) (goos : String) (r : Rune) :
    Encode Keys goos r ≠ [] := by
  rw [Encode_eq]; split <;> simp

/-- C13: for every rune, every record returned by `Encode` (there is at least
one) has `AutoRepeat`, `IsKeypad` and `IsSystemKey` false, `Location = 0` and a
nil `Timestamp`. -/
theorem C13_unset_fields (Keys : KeyTable) (goos : String) (r : Rune) :
    Encode Keys goos r ≠ [] ∧
    ∀ p ∈ Encode Keys goos r,
      p.AutoRepeat = false ∧ p.IsKeypad = false ∧ p.IsSystemKey = false ∧
      p.Location = 0 ∧ p.Timestamp = none := by
  refine ⟨Encode_ne_nil Keys goos r, ?_⟩
  intro p hp
  rcases mem_Encode Keys goos r p hp with h | h | h
  · rw [h, mkKeyDown_eq]; exact ⟨rfl, rfl, rfl, rfl, rfl⟩
  · rw [h, mkKeyChar_eq]; exact ⟨rfl, rfl, rfl, rfl, rfl⟩
  · rw [h, mkKeyDown_eq]; exact ⟨rfl, rfl, rfl, rfl, rfl⟩

/-- C14: within one call all records of `Encode` carry the same `Modifiers`,
`KeyIdentifier`, `Code` and `Key`; any two of them agree in every field other
than `Type`, `Text`, `UnmodifiedText` and the two virtual key codes, and the
first and last (keyDown, keyUp) agree in every field other than `Type`. -/
theorem C14_shared_fields (Keys : KeyTable) (goos : String) (r : Rune) :
    (∀ p ∈ Encode Keys goos r, ∀ q ∈ Encode Keys goos r,
      p.Modifiers = q.Modifiers ∧ p.KeyIdentifier = q.KeyIdentifier ∧
      p.Code = q.Code ∧ p.Key = q.Key ∧
      { p with Type_ := q.Type_, Text := q.Text, UnmodifiedText := q.UnmodifiedText,
               NativeVirtualKeyCode := q.NativeVirtualKeyCode,
               WindowsVirtualKeyCode := q.WindowsVirtualKeyCode } = q) ∧
    ∃ kd ku, (Encode Keys goos r).head? = some kd ∧
      (Encode Keys goos r).getLast? = some ku ∧ { kd with Type_ := ku.Type_ } = ku := by
  refine ⟨?_, _, _, Encode_head Keys goos r, Encode_getLast Keys goos r, rfl⟩
  intro p hp q hq
  rcases mem_Encode Keys goos r p hp with h | h | h <;>
    rcases mem_Encode Keys goos r q hq with h2 | h2 | h2 <;>
    · subst h; subst h2
      rw [mkKeyDown_eq]
      exact ⟨rfl, rfl, rfl, rfl, rfl⟩

/-- C16: for every rune whose looked-up metadata is printable, on every
platform and in particular on darwin (where the keyDown record has native code
0), the char record carries in both virtual key codes the code point of the
normalized rune: 13 for line-feed, the rune itself otherwise. -/
theorem C16_char_codes_normalized (Keys : KeyTable) (goos : String) (r : Rune)
    (h : (lookup Keys r).Print = true) :
    (∃ kd kc ku, Encode Keys goos r = [kd, kc, ku] ∧ kc.Type_ = "char" ∧
      kc.NativeVirtualKeyCode = (if r = 10 then 13 else r) ∧
      kc.WindowsVirtualKeyCode = (if r = 10 then 13 else r)) ∧
    (∃ kd kc ku, Encode Keys "darwin" r = [kd, kc, ku] ∧ kc.Type_ = "char" ∧
      kd.NativeVirtualKeyCode = 0 ∧ ku.NativeVirtualKeyCode = 0 ∧
      kc.NativeVirtualKeyCode = (if r = 10 then 13 else r) ∧
      kc.WindowsVirtualKeyCode = (if r = 10 then 13 else r)) ∧
    (r = 10 → ∃ kd kc ku, Encode Keys goos 10 = [kd, kc, ku] ∧ kc.Type_ = "char" ∧
      kc.NativeVirtualKeyCode = 13 ∧ kc.WindowsVirtualKeyCode = 13) := by
  have hd : (mkKeyDown "darwin" (lookup Keys r)).NativeVirtualKeyCode = 0 := by
    rw [mkKeyDown_Native, if_pos rfl]
  refine ⟨⟨_, _, _, Encode_of_print Keys goos r h, rfl, rfl, rfl⟩,
    ⟨_, _, _, Encode_of_print Keys "darwin" r h, rfl, hd, hd, rfl, rfl⟩, ?_⟩
  intro hr
  subst hr
  exact ⟨_, _, _, Encode_of_print Keys goos 10 h, rfl, rfl, rfl⟩

/-- Witness for C16: line-feed under the sample table on darwin. -/
theorem C16_char_codes_normalized_witness :
    (lookup sampleKeys 10).Print = true ∧
    ∃ kd kc ku, Encode sampleKeys "darwin" 10 = [kd, kc, ku] ∧ kc.Type_ = "char" ∧
      kc.NativeVirtualKeyCode = 13 ∧ kc.WindowsVirtualKeyCode = 13 :=
  ⟨by decide, (C16_char_codes_normalized sampleKeys "darwin" 10 (by decide)).2.2 rfl⟩

/-- C17: for every rune, table and platform, `Modifiers` of every record
returned by `Encode` (there is at least one) is 0 or 8, is 8 exactly when the
looked-up metadata has `Shift = true`, and has the Alt, Ctrl and Meta bits
(bits 0, 1, 2) clear. -/
theorem C17_modifiers_zero_or_eight (Keys : KeyTable) (goos : String) (r : Rune) :
    Encode Keys goos r ≠ [] ∧
    ∀ p ∈ Encode Keys goos r,
      (p.Modifiers = 0 ∨ p.Modifiers = 8) ∧
      (p.Modifiers = 8 ↔ (lookup Keys r).Shift = true) ∧
      Int.testBit p.Modifiers 0 = false ∧ Int.testBit p.Modifiers 1 = false ∧
      Int.testBit p.Modifiers 2 = false := by
  refine ⟨Encode_ne_nil Keys goos r, ?_⟩
  intro p hp
  have hm : p.Modifiers = if (lookup Keys r).Shift then 8 else 0 := by
    rcases mem_Encode Keys goos r p hp with h | h | h <;>
      · rw [h]; exact mkKeyDown_Modifiers goos _
  rw [hm]
  cases (lookup Keys r).Shift <;> decide

/-- C18: for every rune and table, `Encode` on darwin and on any other
platform return lists of the same length with the same char record (when
there is one), and the darwin keyDown and keyUp records are the other
platform's with `NativeVirtualKeyCode` replaced by 0, the other platform's
carrying the metadata's `Native`. -/
theorem C18_platform_touches_native_only (Keys : KeyTable) (goos : String) (r : Rune)
    (hos : goos ≠ "darwin") :
    (Encode Keys "darwin" r).length = (Encode Keys goos r).length ∧
    ∃ kd ku, kd.Type_ = "keyDown" ∧ ku.Type_ = "keyUp" ∧
      kd.NativeVirtualKeyCode = (lookup Keys r).Native ∧
      ku.NativeVirtualKeyCode = (lookup Keys r).Native ∧
      (((lookup Keys r).Print = false ∧
          Encode Keys goos r = [kd, ku] ∧
          Encode Keys "darwin" r =
            [{ kd with NativeVirtualKeyCode := 0 }, { ku with NativeVirtualKeyCode := 0 }]) ∨
       ((lookup Keys r).Print = true ∧
          ∃ kc, kc.Type_ = "char" ∧
            Encode Keys goos r = [kd, kc, ku] ∧
            Encode Keys "darwin" r =
              [{ kd with NativeVirtualKeyCode := 0 }, kc,
               { ku with NativeVirtualKeyCode := 0 }])) := by
  have hn : (mkKeyDown goos (lookup Keys r)).NativeVirtualKeyCode = (lookup Keys r).Native := by
    rw [mkKeyDown_Native, if_neg hos]
  have hkd : mkKeyDown "darwin" (lookup Keys r)
      = { mkKeyDown goos (lookup Keys r) with NativeVirtualKeyCode := 0 } := by
    rw [mkKeyDown_eq, mkKeyDown_eq, if_pos rfl]
  have hku : mkKeyUp (mkKeyDown "darwin" (lookup Keys r))
      = { mkKeyUp (mkKeyDown goos (lookup Keys r)) with NativeVirtualKeyCode := 0 } := by
    rw [hkd]; rfl
  have hkc : mkKeyChar (mkKeyDown "darwin" (lookup Keys r)) (lookup Keys r) (normalize r)
      = mkKeyChar (mkKeyDown goos (lookup Keys r)) (lookup Keys r) (normalize r) := by
    rw [mkKeyChar_eq, mkKeyChar_eq]
  cases h : (lookup Keys r).Print with
  | false =>
    have e1 := Encode_of_not_print Keys goos r h
    have e2 := Encode_of_not_print Keys "darwin" r h
    rw [hku, hkd] at e2
    exact ⟨by rw [e1, e2]; rfl, mkKeyDown goos (lookup Keys r),
      mkKeyUp (mkKeyDown goos (lookup Keys r)), mkKeyDown_Type goos _, rfl, hn, hn,
      Or.inl ⟨rfl, e1, e2⟩⟩
  | true =>
    have e1 := Encode_of_print Keys goos r h
    have e2 := Encode_of_print Keys "darwin" r h
    rw [hkc, hku, hkd] at e2
    exact ⟨by rw [e1, e2]; rfl, mkKeyDown goos (lookup Keys r),
      mkKeyUp (mkKeyDown goos (lookup Keys r)), mkKeyDown_Type goos _, rfl, hn, hn,
      Or.inr ⟨rfl, mkKeyChar (mkKeyDown goos (lookup Keys r)) (lookup Keys r) (normalize r),
        rfl, e1, e2⟩⟩

/-- Witness for C18: the shifted comma, darwin against linux. -/
theorem C18_platform_touches_native_only_witness :
    "linux" ≠ "darwin" ∧
    (Encode sampleKeys "darwin" 60).length = (Encode sampleKeys "linux" 60).length ∧
    ∃ kd ku, kd.Type_ = "keyDown" ∧ ku.Type_ = "keyUp" ∧
      kd.NativeVirtualKeyCode = (lookup sampleKeys 60).Native ∧
      ku.NativeVirtualKeyCode = (lookup sampleKeys 60).Native ∧
      (((lookup sampleKeys 60).Print = false ∧
          Encode sampleKeys "linux" 60 = [kd, ku] ∧
          Encode sampleKeys "darwin" 60 =
            [{ kd with NativeVirtualKeyCode := 0 }, { ku with NativeVirtualKeyCode := 0 }]) ∨
       ((lookup sampleKeys 60).Print = true ∧
          ∃ kc, kc.Type_ = "char" ∧
            Encode sampleKeys "linux" 60 = [kd, kc, ku] ∧
            Encode sampleKeys "darwin" 60 =
              [{ kd with NativeVirtualKeyCode := 0 }, kc,
               { ku with NativeVirtualKeyCode := 0 }])) :=
  ⟨by decide, C18_platform_touches_native_only sampleKeys "linux" 60 (by decide)⟩

/-- C19: `Encode` reads the table only at the normalized rune: two tables that
agree there give the same output on the same platform, and two tables that
agree everywhere except possibly at line-feed give the same output for every
rune. -/
theorem C19_single_table_read (Keys₁ Keys₂ : KeyTable) (goos : String) :
    (∀ r, Keys₁ (normalize r) = Keys₂ (normalize r) →
      Encode Keys₁ goos r = Encode Keys₂ goos r) ∧
    ((∀ x, x ≠ 10 → Keys₁ x = Keys₂ x) →
      ∀ r, Encode Keys₁ goos r = Encode Keys₂ goos r) := by
  have key : ∀ r, Keys₁ (normalize r) = Keys₂ (normalize r) →
      Encode Keys₁ goos r = Encode Keys₂ goos r := by
    intro r h
    have hv : lookup Keys₁ r = lookup Keys₂ r := by
      unfold lookup index
      rw [h]
    rw [Encode_eq, Encode_eq, hv]
  refine ⟨key, ?_⟩
  intro hagree r
  apply key
  apply hagree
  unfold normalize
  split
  · decide
  · assumption

/-- Witness for C19: `lfKeys` and `sampleKeys` hold the same carriage-return
entry and differ at line-feed, and encode line-feed identically. -/
theorem C19_single_table_read_witness :
    lfKeys (normalize 10) = sampleKeys (normalize 10) ∧ lfKeys 10 ≠ sampleKeys 10 ∧
    Encode lfKeys "linux" 10 = Encode sampleKeys "linux" 10 :=
  ⟨by decide, by decide, (C19_single_table_read lfKeys sampleKeys "linux").1 10 (by decide)⟩

end keys
